import Mathlib

/-!
Verification of the streaming-turn core of the LLM Council frontend
(`src/frontend/src/main.jsx` and `src/frontend/src/App.jsx`).

The development shallowly embeds:
  * the SSE stream decoder of `api.sendMessageStream` (chunk splitting,
    `data: ` prefix filtering, `JSON.parse` with per-record error
    swallowing);
  * the event switch of `handleSendMessage` (the turn state reducer);
  * the regenerate flow of `handleRegenerateMessage`;
  * the optimistic-append / rollback structure of `handleSendMessage`
    around the stream call.

JavaScript objects are modelled as Lean structures with `Option` fields
(`none` plays the role of both `null` and `undefined`, which no verified
property distinguishes); `JSON.parse` is modelled by a total recursive
descent parser over the JSON grammar.
-/

namespace Council

/-- JSON values as produced by `JSON.parse`.  Numeric literals are kept as
their raw source text: no verified property depends on numeric values. -/
inductive Json where
  | null
  | bool (b : Bool)
  | num (raw : String)
  | str (s : String)
  | arr (elems : List Json)
  | obj (fields : List (String × Json))
deriving Repr, Inhabited

/-- JSON whitespace. -/
def jsonWs (c : Char) : Bool :=
  c = ' ' || c = '\t' || c = '\n' || c = '\r'

/-- Skip leading JSON whitespace. -/
def skipWs : List Char → List Char
  | [] => []
  | c :: cs => if jsonWs c then skipWs cs else c :: cs

/-- Hex digit value, if any (code points: digits 48-57, lowercase 97-102,
uppercase 65-70). -/
def hexVal (c : Char) : Option Nat :=
  let n := c.toNat
  if 48 ≤ n && n ≤ 57 then some (n - 48)
  else if 97 ≤ n && n ≤ 102 then some (n - 87)
  else if 65 ≤ n && n ≤ 70 then some (n - 55)
  else none

/-- Parse the body of a JSON string after the opening quote; returns the
decoded characters and the remaining input after the closing quote.
`fuel` bounds recursion depth (one unit per consumed character). -/
def parseStrBody : Nat → List Char → Option (List Char × List Char)
  | 0, _ => none
  | _, [] => none
  | fuel + 1, c :: cs =>
    if c = '"' then some ([], cs)
    else if c = '\\' then
      match cs with
      | [] => none
      | e :: cs2 =>
        if e = 'u' then
          match cs2 with
          | h1 :: h2 :: h3 :: h4 :: cs3 =>
            match hexVal h1, hexVal h2, hexVal h3, hexVal h4 with
            | some v1, some v2, some v3, some v4 =>
              let code := ((v1 * 16 + v2) * 16 + v3) * 16 + v4
              match parseStrBody fuel cs3 with
              | some (s, r) => some (Char.ofNat code :: s, r)
              | none => none
            | _, _, _, _ => none
          | _ => none
        else
          let esc : Option Char :=
            if e = '"' then some '"'
            else if e = '\\' then some '\\'
            else if e = '/' then some '/'
            else if e = 'n' then some '\n'
            else if e = 't' then some '\t'
            else if e = 'r' then some '\r'
            else if e = 'b' then some (Char.ofNat 8)
            else if e = 'f' then some (Char.ofNat 12)
            else none
          match esc with
          | some ch =>
            match parseStrBody fuel cs2 with
            | some (s, r) => some (ch :: s, r)
            | none => none
          | none => none
    else
      match parseStrBody fuel cs with
      | some (s, r) => some (c :: s, r)
      | none => none

/-- Take a maximal run of decimal digits. -/
def takeDigits : List Char → (List Char × List Char)
  | [] => ([], [])
  | c :: cs =>
    if c.isDigit then
      let (ds, r) := takeDigits cs
      (c :: ds, r)
    else ([], c :: cs)

/-- Parse a JSON number token (after JSON's grammar: optional minus, integer
part without leading zeros, optional fraction, optional exponent), returning
its raw text and the rest. -/
def parseNumTok (l : List Char) : Option (List Char × List Char) :=
  let (neg, l1) := match l with
    | '-' :: r => ([('-' : Char)], r)
    | _ => ([], l)
  match l1 with
  | [] => none
  | c :: cs =>
    if c = '0' then
      let (frac, l2) := match cs with
        | '.' :: r =>
          let (ds, r2) := takeDigits r
          if ds.isEmpty then ([], '.' :: r) else ('.' :: ds, r2)
        | _ => ([], cs)
      if (match cs with | '.' :: r => (takeDigits r).1.isEmpty | _ => false) then none
      else
        let (ex, l3) := match l2 with
          | e :: r =>
            if e = 'e' || e = 'E' then
              let (sgn, r1) := match r with
                | s :: r2 => if s = '+' || s = '-' then ([s], r2) else ([], r)
                | [] => ([], r)
              let (ds, r3) := takeDigits r1
              if ds.isEmpty then ([], e :: r) else (e :: sgn ++ ds, r3)
            else ([], e :: r)
          | [] => ([], [])
        if (match l2 with
            | e :: r => (e = 'e' || e = 'E') &&
                (let (_, r1) := match r with
                  | s :: r2 => if s = '+' || s = '-' then ([s], r2) else ([], r)
                  | [] => ([], r)
                 (takeDigits r1).1.isEmpty)
            | [] => false) then none
        else some (neg ++ ['0'] ++ frac ++ ex, l3)
    else if c.isDigit then
      let (ds, l2) := takeDigits (c :: cs)
      let (frac, l3) := match l2 with
        | '.' :: r =>
          let (fs, r2) := takeDigits r
          if fs.isEmpty then ([], '.' :: r) else ('.' :: fs, r2)
        | _ => ([], l2)
      if (match l2 with | '.' :: r => (takeDigits r).1.isEmpty | _ => false) then none
      else
        let (ex, l4) := match l3 with
          | e :: r =>
            if e = 'e' || e = 'E' then
              let (sgn, r1) := match r with
                | s :: r2 => if s = '+' || s = '-' then ([s], r2) else ([], r)
                | [] => ([], r)
              let (es, r3) := takeDigits r1
              if es.isEmpty then ([], e :: r) else (e :: sgn ++ es, r3)
            else ([], e :: r)
          | [] => ([], [])
        if (match l3 with
            | e :: r => (e = 'e' || e = 'E') &&
                (let (_, r1) := match r with
                  | s :: r2 => if s = '+' || s = '-' then ([s], r2) else ([], r)
                  | [] => ([], r)
                 (takeDigits r1).1.isEmpty)
            | [] => false) then none
        else some (neg ++ ds ++ frac ++ ex, l4)
    else none

/-- Check that `pre` is a prefix of `l`; on success return the rest. -/
def expectChars (pre : List Char) (l : List Char) : Option (List Char) :=
  match pre, l with
  | [], r => some r
  | p :: ps, c :: cs => if p = c then expectChars ps cs else none
  | _ :: _, [] => none

mutual

/-- Parse one JSON value (leading whitespace allowed). -/
def parseValue : Nat → List Char → Option (Json × List Char)
  | 0, _ => none
  | fuel + 1, l =>
    match skipWs l with
    | [] => none
    | c :: cs =>
      if c = '"' then
        match parseStrBody (fuel + 1) cs with
        | some (s, r) => some (.str (String.mk s), r)
        | none => none
      else if c = '{' then
        match skipWs cs with
        | '}' :: r => some (.obj [], r)
        | r => parseMembers fuel r []
      else if c = '[' then
        match skipWs cs with
        | ']' :: r => some (.arr [], r)
        | r => parseElems fuel r []
      else if c = 't' then
        (expectChars ['r', 'u', 'e'] cs).map (fun r => (.bool true, r))
      else if c = 'f' then
        (expectChars ['a', 'l', 's', 'e'] cs).map (fun r => (.bool false, r))
      else if c = 'n' then
        (expectChars ['u', 'l', 'l'] cs).map (fun r => (.null, r))
      else
        match parseNumTok (c :: cs) with
        | some (tok, r) => some (.num (String.mk tok), r)
        | none => none

/-- Parse object members `"k" : v (, "k" : v)* }`, accumulating. -/
def parseMembers : Nat → List Char → List (String × Json) → Option (Json × List Char)
  | 0, _, _ => none
  | fuel + 1, l, acc =>
    match skipWs l with
    | '"' :: cs =>
      match parseStrBody (fuel + 1) cs with
      | some (k, r) =>
        match skipWs r with
        | ':' :: r2 =>
          match parseValue fuel r2 with
          | some (v, r3) =>
            let acc2 := acc ++ [(String.mk k, v)]
            match skipWs r3 with
            | ',' :: r4 => parseMembers fuel r4 acc2
            | '}' :: r4 => some (.obj acc2, r4)
            | _ => none
          | none => none
        | _ => none
      | none => none
    | _ => none

/-- Parse array elements `v (, v)* ]`, accumulating. -/
def parseElems : Nat → List Char → List Json → Option (Json × List Char)
  | 0, _, _ => none
  | fuel + 1, l, acc =>
    match parseValue fuel l with
    | some (v, r) =>
      let acc2 := acc ++ [v]
      match skipWs r with
      | ',' :: r2 => parseElems fuel r2 acc2
      | ']' :: r2 => some (.arr acc2, r2)
      | _ => none
    | none => none

end

/-- Model of the JavaScript `JSON.parse` builtin used at
`main.jsx:193`, on a character list: `none` when `JSON.parse` would
throw (including trailing garbage), `some v` otherwise. -/
def jsonParseChars (l : List Char) : Option Json :=
  match parseValue (l.length + 1) l with
  | some (v, rest) => if skipWs rest = [] then some v else none
  | none => none

/-- `JSON.parse` on a string. -/
def jsonParse (s : String) : Option Json :=
  jsonParseChars s.data

/-! ## JavaScript object-access helpers -/

/-- Property access `j.k` on a parsed JSON value: `none` models
`undefined` (non-object receiver or missing key).  `JSON.parse` keeps the
last of duplicate keys, hence the reversed lookup. -/
def Json.getField (j : Json) (k : String) : Option Json :=
  match j with
  | .obj fields => fields.reverse.lookup k
  | _ => none

/-- JavaScript truthiness of a field-access result (`none` = `undefined`).
Used only for `event.models || []` (main use: arrays/objects are truthy,
`undefined`/`null` are falsy). -/
def jsTruthy : Option Json → Bool
  | none => false
  | some .null => false
  | some (.bool b) => b
  | some (.str s) => s ≠ ""
  | some (.num raw) => raw ≠ "0" && raw ≠ "-0"
  | some (.arr _) => true
  | some (.obj _) => true

/-- The value the `switch (eventType)` in `handleSendMessage` dispatches
on: `event.type` when it is a string, otherwise no case matches
(modelled as `none`, which falls to `default`). -/
def Json.typeTag (j : Json) : Option String :=
  match j.getField "type" with
  | some (.str s) => some s
  | _ => none

/-! ## Event Decoder (`api.sendMessageStream`, main.jsx:178-200)

Each delivery chunk is decoded to text and split on `"\n"` **with no
carry-over buffer between chunks**; lines starting with `"data: "` have
the rest `JSON.parse`d, a parse failure drops the record (the `catch`
only logs), and the parsed event is emitted as the pair
`(event.type, event)` handed to `onEvent`. -/

/-- One decoded SSE record: the `(eventType, event)` pair passed to the
`onEvent` callback. -/
structure Ev where
  ty : Option String
  payload : Json
deriving Repr

/-- `chunk.split("\n")`: split a character sequence at every newline,
keeping empty pieces (as the JavaScript `String.prototype.split` does). -/
def splitOnNl : List Char → List (List Char)
  | [] => [[]]
  | x :: xs =>
    match splitOnNl xs with
    | h :: t => if x = '\n' then [] :: h :: t else (x :: h) :: t
    | [] => [[x]]

/-- The characters of the `"data: "` record prefix. -/
def dataPrefix : List Char := ['d', 'a', 't', 'a', ':', ' ']

/-- Decode one line of a chunk (the body of the `for (const line of lines)`
loop at main.jsx:189-199): for a line starting with `"data: "`,
`JSON.parse` the rest (`line.slice(6)`) and emit the event; a parse
failure or a non-`data:` line yields nothing. -/
def decodeLine (line : List Char) : Option Ev :=
  match expectChars dataPrefix line with
  | some rest =>
    match jsonParseChars rest with
    | some ev => some ⟨ev.typeTag, ev⟩
    | none => none
  | none => none

/-- Decode a list of lines in order, dropping malformed and non-`data:`
lines. -/
def decodeLines (lines : List (List Char)) : List Ev :=
  lines.filterMap decodeLine

/-- Decode one delivery chunk: `chunk.split("\n")` then the per-line loop.
No trailing partial line is buffered for the next chunk. -/
def decodeChunk (chunk : String) : List Ev :=
  decodeLines (splitOnNl chunk.data)

/-- Decode a whole channel, chunk by chunk, in arrival order — the event
sequence `sendMessageStream` feeds to `onEvent` when the stream ends
normally. -/
def decodeChunks (chunks : List String) : List Ev :=
  chunks.flatMap decodeChunk

/-! ## Conversation state (App.jsx)

`Msg` models one element of `currentConversation.messages`.  A user
message carries `role: "user"` and `content`; the optimistic assistant
placeholder (App.jsx:149-162) carries nulled stage fields and a `loading`
object.  `Option` fields model `null`/`undefined`. -/

/-- The `loading` object of an assistant message.  `stage1Models` is the
property added dynamically by the `stage1_start` handler (`none` while it
has never been assigned). -/
structure Loading where
  stage1 : Bool
  stage2 : Bool
  stage3 : Bool
  simple : Bool
  stage1Models : Option Json
deriving Repr

/-- One element of `currentConversation.messages`. -/
structure Msg where
  role : String
  content : Option String
  stage1 : Option Json
  stage2 : Option Json
  stage3 : Option Json
  simpleResponse : Option Json
  metadata : Option Json
  loading : Option Loading
deriving Repr

/-- The optimistic user message `{ role: "user", content }`
(App.jsx:142). -/
def userMsg (content : String) : Msg :=
  { role := "user", content := some content, stage1 := none, stage2 := none
    stage3 := none, simpleResponse := none, metadata := none, loading := none }

/-- The optimistic partial assistant message (App.jsx:149-162): all stage
fields null, all four loading flags false. -/
def pendingMsg : Msg :=
  { role := "assistant", content := none, stage1 := none, stage2 := none
    stage3 := none, simpleResponse := none, metadata := none
    loading := some { stage1 := false, stage2 := false, stage3 := false
                      simple := false, stage1Models := none } }

/-- The slice of component state the event switch touches: the message
list, the `isLoading` flag, whether `abortControllerRef.current` is
non-null, and a count of `loadConversations()` refresh calls triggered. -/
structure AppState where
  messages : List Msg
  isLoading : Bool
  abortActive : Bool
  refreshCount : Nat
deriving Repr

/-- Every event handler updates `messages[messages.length - 1]` in place;
this rewrites the last element of a list (empty list unchanged — the
handlers are only ever run after the two optimistic messages were
appended). -/
def updateLast (f : Msg → Msg) : List Msg → List Msg
  | [] => []
  | [m] => [f m]
  | m :: m2 :: ms => m :: updateLast f (m2 :: ms)

/-- Map a function over a message's `loading` object when it is present;
when `loading` is absent this is the identity.  (For the four
`simple_mode_*`/`stageN_*` handlers the source performs the write
unguardedly and would throw on a message without `loading`; that
situation is unreachable in a turn, where the last message is always the
placeholder.  The `aborted`/`cancelled` handlers guard with
`if (lastMsg.loading)`, which this function models exactly.) -/
def Msg.mapLoading (m : Msg) (f : Loading → Loading) : Msg :=
  { m with loading := m.loading.map f }

/-- `simple_mode_start` case body (App.jsx:176-184):
`lastMsg.loading.simple = true`. -/
def simpleStartUpd (m : Msg) : Msg :=
  m.mapLoading (fun l => { l with simple := true })

/-- `simple_mode_complete` case body (App.jsx:186-194):
`lastMsg.simpleResponse = event.data; lastMsg.loading.simple = false`. -/
def simpleCompleteUpd (p : Json) (m : Msg) : Msg :=
  Msg.mapLoading { m with simpleResponse := p.getField "data" }
    (fun l => { l with simple := false })

/-- `stage1_start` case body (App.jsx:196-204):
`lastMsg.loading.stage1 = true; lastMsg.loading.stage1Models = event.models || []`. -/
def stage1StartUpd (p : Json) (m : Msg) : Msg :=
  m.mapLoading (fun l =>
    { l with stage1 := true
             stage1Models := some (if jsTruthy (p.getField "models")
               then (p.getField "models").getD .null else .arr []) })

/-- `stage1_complete` case body (App.jsx:206-214):
`lastMsg.stage1 = event.data; lastMsg.loading.stage1 = false`. -/
def stage1CompleteUpd (p : Json) (m : Msg) : Msg :=
  Msg.mapLoading { m with stage1 := p.getField "data" }
    (fun l => { l with stage1 := false })

/-- `stage2_start` case body (App.jsx:216-223):
`lastMsg.loading.stage2 = true`. -/
def stage2StartUpd (m : Msg) : Msg :=
  m.mapLoading (fun l => { l with stage2 := true })

/-- `stage2_complete` case body (App.jsx:225-234): `lastMsg.stage2 =
event.data; lastMsg.metadata = event.metadata; lastMsg.loading.stage2 =
false`. -/
def stage2CompleteUpd (p : Json) (m : Msg) : Msg :=
  Msg.mapLoading
    { m with stage2 := p.getField "data", metadata := p.getField "metadata" }
    (fun l => { l with stage2 := false })

/-- `stage3_start` case body (App.jsx:236-243):
`lastMsg.loading.stage3 = true`. -/
def stage3StartUpd (m : Msg) : Msg :=
  m.mapLoading (fun l => { l with stage3 := true })

/-- `stage3_complete` case body (App.jsx:245-253):
`lastMsg.stage3 = event.data; lastMsg.loading.stage3 = false`. -/
def stage3CompleteUpd (p : Json) (m : Msg) : Msg :=
  Msg.mapLoading { m with stage3 := p.getField "data" }
    (fun l => { l with stage3 := false })

/-- `aborted` case body (App.jsx:275-289): guarded by
`if (lastMsg.loading)`, clear all four loading flags. -/
def abortedUpd (m : Msg) : Msg :=
  m.mapLoading (fun l =>
    { l with stage1 := false, stage2 := false, stage3 := false, simple := false })

/-- `cancelled` case body on the message (App.jsx:293-302): guarded by
`if (lastMsg.loading)`, clear the three stage flags — `loading.simple`
is not touched by this handler. -/
def cancelledUpd (m : Msg) : Msg :=
  m.mapLoading (fun l =>
    { l with stage1 := false, stage2 := false, stage3 := false })

/-- The `onEvent` switch of `handleSendMessage` (App.jsx:175-309): fold
one `(eventType, event)` pair into the state.  Each case is a direct
transcription of the corresponding `case` branch (the per-message bodies
are the named updaters above); `toast`/`console` calls are pure UI
effects outside the modelled state. -/
def onEvent (st : AppState) (e : Ev) : AppState :=
  if e.ty = some "simple_mode_start" then
    { st with messages := updateLast simpleStartUpd st.messages }
  else if e.ty = some "simple_mode_complete" then
    { st with messages := updateLast (simpleCompleteUpd e.payload) st.messages }
  else if e.ty = some "stage1_start" then
    { st with messages := updateLast (stage1StartUpd e.payload) st.messages }
  else if e.ty = some "stage1_complete" then
    { st with messages := updateLast (stage1CompleteUpd e.payload) st.messages }
  else if e.ty = some "stage2_start" then
    { st with messages := updateLast stage2StartUpd st.messages }
  else if e.ty = some "stage2_complete" then
    { st with messages := updateLast (stage2CompleteUpd e.payload) st.messages }
  else if e.ty = some "stage3_start" then
    { st with messages := updateLast stage3StartUpd st.messages }
  else if e.ty = some "stage3_complete" then
    { st with messages := updateLast (stage3CompleteUpd e.payload) st.messages }
  else if e.ty = some "title_complete" then
    { st with refreshCount := st.refreshCount + 1 }
  else if e.ty = some "complete" then
    { st with refreshCount := st.refreshCount + 1, isLoading := false, abortActive := false }
  else if e.ty = some "error" then
    { st with isLoading := false, abortActive := false }
  else if e.ty = some "aborted" then
    { st with messages := updateLast abortedUpd st.messages }
  else if e.ty = some "cancelled" then
    { st with messages := updateLast cancelledUpd st.messages, isLoading := false, abortActive := false }
  else st

/-- Fold a whole event sequence into the state, in arrival order. -/
def onEvents (st : AppState) (evs : List Ev) : AppState :=
  evs.foldl onEvent st

/-! ## Regeneration (`handleRegenerateMessage`, App.jsx:98-131) -/

/-- `messages[j]?.role`. -/
def roleAt (msgs : List Msg) (j : Nat) : Option String :=
  (msgs.get? j).map (fun m => m.role)

/-- The backward scan of the `while` loop (App.jsx:107-112): starting at
index `j` and walking down to `0`, the first index whose message has
`role === "user"`. -/
def searchBackUser (msgs : List Msg) : Nat → Option Nat
  | 0 => if roleAt msgs 0 = some "user" then some 0 else none
  | j + 1 => if roleAt msgs (j + 1) = some "user" then some (j + 1)
             else searchBackUser msgs j

/-- `userMessageIndex` as computed by App.jsx:104-112: start at
`messageIndex - 1` and walk back; `none` when the loop exits with a
negative index (including `messageIndex = 0`, where the start index is
already `-1`). -/
def findPrecedingUser (msgs : List Msg) (messageIndex : Nat) : Option Nat :=
  match messageIndex with
  | 0 => none
  | k + 1 => searchBackUser msgs k

/-- Outcome of `handleRegenerateMessage` up to the re-send: either the
early return with the conversation untouched, or the truncated message
list (`messages.slice(0, messageIndex)`, App.jsx:124) together with the
user content passed to `handleSendMessage`. -/
inductive RegenResult where
  | notFound
  | resend (truncated : List Msg) (content : Option String)
deriving Repr

/-- `handleRegenerateMessage(messageIndex)` (App.jsx:98-131), modelled up
to the point where it re-enters the send pipeline. -/
def handleRegenerateMessage (msgs : List Msg) (messageIndex : Nat) : RegenResult :=
  match findPrecedingUser msgs messageIndex with
  | none => .notFound
  | some k => .resend (msgs.take messageIndex) ((msgs.get? k).bind (fun m => m.content))

/-! ## The send pipeline around the stream (`handleSendMessage`,
App.jsx:133-328)

`handleSendMessage` appends the optimistic `User`/pending pair, awaits
`sendMessageStream`, and in its `catch` removes the last two messages
(`messages.slice(0, -2)`) unless the error is an `AbortError`.
`sendMessageStream` itself turns a mid-read `AbortError` into a synthetic
`aborted` event and returns normally, and rethrows any other mid-read
error. -/

/-- How the awaited `sendMessageStream` call resolves. -/
inductive StreamFin where
  /-- The channel closed normally (`done`). -/
  | done
  /-- `reader.read()` rejected with `AbortError`: `sendMessageStream`
  emits the synthetic `aborted` event and resolves (main.jsx:201-204). -/
  | abortedRead
  /-- A non-abort error mid-stream: rethrown to the caller
  (main.jsx:205-206). -/
  | readError
deriving Repr

/-- Observable resolution of the whole `sendMessageStream` call. -/
inductive StreamOutcome where
  /-- `fetch` rejected (non-abort) or `response.ok` was false: the
  `throw new Error("Failed to send message")` at main.jsx:175, before
  any event is accepted. -/
  | openFailure
  /-- `fetch` itself rejected with `AbortError`: `handleSendMessage`'s
  catch returns early (App.jsx:314-317). -/
  | openAborted
  /-- The stream opened; `evs` are the events accepted before it
  finished as `fin`. -/
  | streamed (evs : List Ev) (fin : StreamFin)
deriving Repr

/-- `messages.slice(0, -2)` (App.jsx:323). -/
def sliceDropTwo (l : List Msg) : List Msg :=
  l.take (l.length - 2)

/-- The synthetic event `onEvent("aborted", { message: "Stream aborted by
user" })` (main.jsx:203). -/
def abortedEv : Ev :=
  ⟨some "aborted", .obj [("message", .str "Stream aborted by user")]⟩

/-- One run of `handleSendMessage content` over a conversation whose
messages are `msgs`, given how the stream call resolves: sets
`isLoading`, appends the optimistic `User` message and pending assistant
placeholder, folds the accepted events, and applies the `catch`-block
rollback exactly when a non-abort error propagates. -/
def sendTurn (msgs : List Msg) (content : String) (outcome : StreamOutcome) : AppState :=
  let st0 : AppState :=
    { messages := msgs ++ [userMsg content, pendingMsg]
      isLoading := true, abortActive := true, refreshCount := 0 }
  match outcome with
  | .openFailure =>
    { st0 with messages := sliceDropTwo st0.messages, isLoading := false, abortActive := false }
  | .openAborted => st0
  | .streamed evs .done => onEvents st0 evs
  | .streamed evs .abortedRead => onEvent (onEvents st0 evs) abortedEv
  | .streamed evs .readError =>
    let st1 := onEvents st0 evs
    { st1 with messages := sliceDropTwo st1.messages, isLoading := false, abortActive := false }

/-! ## Wire-event constructors

Events as the decoder delivers them: the payload is the parsed JSON
object and the dispatch tag is its `type` string. -/

/-- A wire event with type string `ty` and further payload fields. -/
def wireEv (ty : String) (rest : List (String × Json)) : Ev :=
  ⟨some ty, .obj (("type", .str ty) :: rest)⟩

def evSimpleStart : Ev := wireEv "simple_mode_start" []

def evSimpleComplete (d : Json) : Ev := wireEv "simple_mode_complete" [("data", d)]

def evStage1Start (models : Json) : Ev := wireEv "stage1_start" [("models", models)]

def evStage1Complete (d : Json) : Ev := wireEv "stage1_complete" [("data", d)]

def evStage2Start : Ev := wireEv "stage2_start" []

def evStage2Complete (d md : Json) : Ev := wireEv "stage2_complete" [("data", d), ("metadata", md)]

def evStage3Start : Ev := wireEv "stage3_start" []

def evStage3Complete (d : Json) : Ev := wireEv "stage3_complete" [("data", d)]

def evTitleComplete : Ev := wireEv "title_complete" []

def evComplete : Ev := wireEv "complete" []

def evCancelled : Ev := wireEv "cancelled" []

/-- An event whose type is outside the documented vocabulary. -/
def evFooBar : Ev := wireEv "foo_bar" []

/-- The six-event staged pipeline in its documented order, with the
payloads carried by each completing event. -/
def stagedCore (models d1 d2 md d3 : Json) : List Ev :=
  [evStage1Start models, evStage1Complete d1, evStage2Start,
   evStage2Complete d2 md, evStage3Start, evStage3Complete d3]

/-- The thirteen event-type strings the switch recognizes. -/
def eventVocab : List String :=
  ["simple_mode_start", "simple_mode_complete", "stage1_start", "stage1_complete",
   "stage2_start", "stage2_complete", "stage3_start", "stage3_complete",
   "title_complete", "complete", "error", "aborted", "cancelled"]

/-- The six staged-pipeline event types. -/
def stageEventTys : List String :=
  ["stage1_start", "stage1_complete", "stage2_start", "stage2_complete",
   "stage3_start", "stage3_complete"]

/-- The per-turn stream event types: the handlers that write through
`messages[messages.length - 1]`. -/
def streamEventTys : List String :=
  ["simple_mode_start", "simple_mode_complete", "stage1_start", "stage1_complete",
   "stage2_start", "stage2_complete", "stage3_start", "stage3_complete",
   "aborted", "cancelled"]

/-- A field value that is present and not JSON `null`. -/
def jsNonNull (o : Option Json) : Prop :=
  o ≠ none ∧ o ≠ some .null

/-- The assistant message produced by folding the staged pipeline into
the fresh placeholder: all three stage payloads attached, metadata set,
every loading flag false. -/
def stagedFinalMsg (models d1 d2 md d3 : Json) : Msg :=
  { role := "assistant", content := none, stage1 := some d1, stage2 := some d2
    stage3 := some d3, simpleResponse := none, metadata := some md
    loading := some { stage1 := false, stage2 := false, stage3 := false
                      simple := false
                      stage1Models := some (if jsTruthy (some models)
                        then models else .arr []) } }

/-- A terminal staged assistant message (stage data present, nothing
loading): used to exhibit that the handlers target the last array slot
without checking that it is still a pending message. -/
def doneStagedMsg : Msg :=
  { role := "assistant", content := none, stage1 := some (.arr [])
    stage2 := some (.arr []), stage3 := some (.obj []), simpleResponse := none
    metadata := some (.obj [])
    loading := some { stage1 := false, stage2 := false, stage3 := false
                      simple := false, stage1Models := some (.arr []) } }

/-- A loading object with all four flags raised. -/
def busyLoading : Loading :=
  { stage1 := true, stage2 := true, stage3 := true, simple := true
    stage1Models := none }

/-- A pending message in the middle of simple and staged work: all four
loading flags raised. -/
def busyMsg : Msg :=
  { pendingMsg with loading := some busyLoading }

/-- A small conversation state used to instantiate universally quantified
theorems: one user message and the fresh placeholder, mid-turn. -/
def exState : AppState :=
  ⟨[userMsg "q", pendingMsg], true, true, 0⟩

/-- A pending message mid-stage-1: stage-1 data already attached while
`loading.stage1` is still raised. -/
def midTurnMsg : Msg :=
  { pendingMsg with stage1 := some (.arr []), loading := some ⟨true, false, false, false, some (.arr [])⟩ }

/-! ## Helper lemmas -/

theorem updateLast_cons (f : Msg → Msg) (x : Msg) (l : List Msg) (h : l ≠ []) :
    updateLast f (x :: l) = x :: updateLast f l := by
  cases l with
  | nil => exact absurd rfl h
  | cons a t => rfl

theorem updateLast_append_last (f : Msg → Msg) (pre : List Msg) (m : Msg) :
    updateLast f (pre ++ [m]) = pre ++ [f m] := by
  induction pre with
  | nil => rfl
  | cons a t ih =>
    rw [List.cons_append, updateLast_cons f a (t ++ [m]) (by simp), ih, List.cons_append]

theorem updateLast_length (f : Msg → Msg) (l : List Msg) :
    (updateLast f l).length = l.length := by
  induction l with
  | nil => rfl
  | cons a t ih =>
    cases t with
    | nil => rfl
    | cons b ts =>
      have h : updateLast f (a :: b :: ts) = a :: updateLast f (b :: ts) := rfl
      rw [h, List.length_cons, List.length_cons, ih]

theorem updateLast_dropLast (f : Msg → Msg) (l : List Msg) :
    (updateLast f l).dropLast = l.dropLast := by
  induction l with
  | nil => rfl
  | cons a t ih =>
    cases t with
    | nil => rfl
    | cons b ts =>
      have h : updateLast f (a :: b :: ts) = a :: updateLast f (b :: ts) := rfl
      have hne : updateLast f (b :: ts) ≠ [] := by
        intro hn
        have := updateLast_length f (b :: ts)
        rw [hn] at this
        simp at this
      rw [h, List.dropLast_cons_of_ne_nil hne, List.dropLast_cons_of_ne_nil (by simp), ih]

/-- An event whose type matches none of the thirteen recognized strings
falls through to the `default` branch: the state is unchanged (the
branch only logs). -/
theorem onEvent_unknown (st : AppState) (ty : Option String) (p : Json)
    (h : ∀ s ∈ eventVocab, ty ≠ some s) : onEvent st ⟨ty, p⟩ = st := by
  unfold onEvent
  dsimp only
  rw [if_neg (h "simple_mode_start" (by simp [eventVocab])),
      if_neg (h "simple_mode_complete" (by simp [eventVocab])),
      if_neg (h "stage1_start" (by simp [eventVocab])),
      if_neg (h "stage1_complete" (by simp [eventVocab])),
      if_neg (h "stage2_start" (by simp [eventVocab])),
      if_neg (h "stage2_complete" (by simp [eventVocab])),
      if_neg (h "stage3_start" (by simp [eventVocab])),
      if_neg (h "stage3_complete" (by simp [eventVocab])),
      if_neg (h "title_complete" (by simp [eventVocab])),
      if_neg (h "complete" (by simp [eventVocab])),
      if_neg (h "error" (by simp [eventVocab])),
      if_neg (h "aborted" (by simp [eventVocab])),
      if_neg (h "cancelled" (by simp [eventVocab]))]

/-- Every branch of the event switch leaves all but the last message
untouched and never changes the number of messages. -/
theorem onEvent_frame (st : AppState) (e : Ev) :
    (onEvent st e).messages.dropLast = st.messages.dropLast ∧
    (onEvent st e).messages.length = st.messages.length := by
  rcases e with ⟨ty, p⟩
  by_cases h1 : ty = some "simple_mode_start"
  · subst h1; exact ⟨updateLast_dropLast _ _, updateLast_length _ _⟩
  by_cases h2 : ty = some "simple_mode_complete"
  · subst h2; exact ⟨updateLast_dropLast _ _, updateLast_length _ _⟩
  by_cases h3 : ty = some "stage1_start"
  · subst h3; exact ⟨updateLast_dropLast _ _, updateLast_length _ _⟩
  by_cases h4 : ty = some "stage1_complete"
  · subst h4; exact ⟨updateLast_dropLast _ _, updateLast_length _ _⟩
  by_cases h5 : ty = some "stage2_start"
  · subst h5; exact ⟨updateLast_dropLast _ _, updateLast_length _ _⟩
  by_cases h6 : ty = some "stage2_complete"
  · subst h6; exact ⟨updateLast_dropLast _ _, updateLast_length _ _⟩
  by_cases h7 : ty = some "stage3_start"
  · subst h7; exact ⟨updateLast_dropLast _ _, updateLast_length _ _⟩
  by_cases h8 : ty = some "stage3_complete"
  · subst h8; exact ⟨updateLast_dropLast _ _, updateLast_length _ _⟩
  by_cases h9 : ty = some "title_complete"
  · subst h9; exact ⟨rfl, rfl⟩
  by_cases h10 : ty = some "complete"
  · subst h10; exact ⟨rfl, rfl⟩
  by_cases h11 : ty = some "error"
  · subst h11; exact ⟨rfl, rfl⟩
  by_cases h12 : ty = some "aborted"
  · subst h12; exact ⟨updateLast_dropLast _ _, updateLast_length _ _⟩
  by_cases h13 : ty = some "cancelled"
  · subst h13; exact ⟨updateLast_dropLast _ _, updateLast_length _ _⟩
  have hu : onEvent st ⟨ty, p⟩ = st := by
    refine onEvent_unknown st ty p ?_
    intro s hs
    simp only [eventVocab, List.mem_cons, List.not_mem_nil, or_false] at hs
    rcases hs with rfl | rfl | rfl | rfl | rfl | rfl | rfl | rfl | rfl | rfl | rfl | rfl | rfl <;>
      assumption
  rw [hu]
  exact ⟨rfl, rfl⟩

/-- Frame property for a whole event sequence. -/
theorem onEvents_frame (st : AppState) (evs : List Ev) :
    (onEvents st evs).messages.dropLast = st.messages.dropLast ∧
    (onEvents st evs).messages.length = st.messages.length := by
  induction evs generalizing st with
  | nil => exact ⟨rfl, rfl⟩
  | cons e t ih =>
    have h1 := onEvent_frame st e
    have h2 := ih (onEvent st e)
    exact ⟨h2.1.trans h1.1, h2.2.trans h1.2⟩

/-- `slice(0, -2)` drops exactly the last two elements. -/
theorem sliceDropTwo_eq (l : List Msg) :
    sliceDropTwo l = l.dropLast.dropLast := by
  unfold sliceDropTwo
  rw [List.dropLast_eq_take, List.dropLast_eq_take, List.take_take,
    List.length_take]
  congr 1
  omega

/-! Step lemmas: the effect of each recognized event on a state whose
message list ends in a known last element. -/

theorem onEvent_simple_start (pre : List Msg) (m : Msg) (iL aA : Bool) (rc : Nat) (p : Json) :
    onEvent ⟨pre ++ [m], iL, aA, rc⟩ ⟨some "simple_mode_start", p⟩ =
      ⟨pre ++ [simpleStartUpd m], iL, aA, rc⟩ := by
  show (⟨updateLast simpleStartUpd (pre ++ [m]), iL, aA, rc⟩ : AppState) = _
  rw [updateLast_append_last]

theorem onEvent_simple_complete (pre : List Msg) (m : Msg) (iL aA : Bool) (rc : Nat) (p : Json) :
    onEvent ⟨pre ++ [m], iL, aA, rc⟩ ⟨some "simple_mode_complete", p⟩ =
      ⟨pre ++ [simpleCompleteUpd p m], iL, aA, rc⟩ := by
  show (⟨updateLast (simpleCompleteUpd p) (pre ++ [m]), iL, aA, rc⟩ : AppState) = _
  rw [updateLast_append_last]

theorem onEvent_stage1_start (pre : List Msg) (m : Msg) (iL aA : Bool) (rc : Nat) (p : Json) :
    onEvent ⟨pre ++ [m], iL, aA, rc⟩ ⟨some "stage1_start", p⟩ =
      ⟨pre ++ [stage1StartUpd p m], iL, aA, rc⟩ := by
  show (⟨updateLast (stage1StartUpd p) (pre ++ [m]), iL, aA, rc⟩ : AppState) = _
  rw [updateLast_append_last]

theorem onEvent_stage1_complete (pre : List Msg) (m : Msg) (iL aA : Bool) (rc : Nat) (p : Json) :
    onEvent ⟨pre ++ [m], iL, aA, rc⟩ ⟨some "stage1_complete", p⟩ =
      ⟨pre ++ [stage1CompleteUpd p m], iL, aA, rc⟩ := by
  show (⟨updateLast (stage1CompleteUpd p) (pre ++ [m]), iL, aA, rc⟩ : AppState) = _
  rw [updateLast_append_last]

theorem onEvent_stage2_start (pre : List Msg) (m : Msg) (iL aA : Bool) (rc : Nat) (p : Json) :
    onEvent ⟨pre ++ [m], iL, aA, rc⟩ ⟨some "stage2_start", p⟩ =
      ⟨pre ++ [stage2StartUpd m], iL, aA, rc⟩ := by
  show (⟨updateLast stage2StartUpd (pre ++ [m]), iL, aA, rc⟩ : AppState) = _
  rw [updateLast_append_last]

theorem onEvent_stage2_complete (pre : List Msg) (m : Msg) (iL aA : Bool) (rc : Nat) (p : Json) :
    onEvent ⟨pre ++ [m], iL, aA, rc⟩ ⟨some "stage2_complete", p⟩ =
      ⟨pre ++ [stage2CompleteUpd p m], iL, aA, rc⟩ := by
  show (⟨updateLast (stage2CompleteUpd p) (pre ++ [m]), iL, aA, rc⟩ : AppState) = _
  rw [updateLast_append_last]

theorem onEvent_stage3_start (pre : List Msg) (m : Msg) (iL aA : Bool) (rc : Nat) (p : Json) :
    onEvent ⟨pre ++ [m], iL, aA, rc⟩ ⟨some "stage3_start", p⟩ =
      ⟨pre ++ [stage3StartUpd m], iL, aA, rc⟩ := by
  show (⟨updateLast stage3StartUpd (pre ++ [m]), iL, aA, rc⟩ : AppState) = _
  rw [updateLast_append_last]

theorem onEvent_stage3_complete (pre : List Msg) (m : Msg) (iL aA : Bool) (rc : Nat) (p : Json) :
    onEvent ⟨pre ++ [m], iL, aA, rc⟩ ⟨some "stage3_complete", p⟩ =
      ⟨pre ++ [stage3CompleteUpd p m], iL, aA, rc⟩ := by
  show (⟨updateLast (stage3CompleteUpd p) (pre ++ [m]), iL, aA, rc⟩ : AppState) = _
  rw [updateLast_append_last]

theorem onEvent_title_complete (msgs : List Msg) (iL aA : Bool) (rc : Nat) (p : Json) :
    onEvent ⟨msgs, iL, aA, rc⟩ ⟨some "title_complete", p⟩ = ⟨msgs, iL, aA, rc + 1⟩ := rfl

theorem onEvent_complete (msgs : List Msg) (iL aA : Bool) (rc : Nat) (p : Json) :
    onEvent ⟨msgs, iL, aA, rc⟩ ⟨some "complete", p⟩ = ⟨msgs, false, false, rc + 1⟩ := rfl

theorem onEvent_error (msgs : List Msg) (iL aA : Bool) (rc : Nat) (p : Json) :
    onEvent ⟨msgs, iL, aA, rc⟩ ⟨some "error", p⟩ = ⟨msgs, false, false, rc⟩ := rfl

theorem onEvent_aborted (pre : List Msg) (m : Msg) (iL aA : Bool) (rc : Nat) (p : Json) :
    onEvent ⟨pre ++ [m], iL, aA, rc⟩ ⟨some "aborted", p⟩ =
      ⟨pre ++ [abortedUpd m], iL, aA, rc⟩ := by
  show (⟨updateLast abortedUpd (pre ++ [m]), iL, aA, rc⟩ : AppState) = _
  rw [updateLast_append_last]

theorem onEvent_cancelled (pre : List Msg) (m : Msg) (iL aA : Bool) (rc : Nat) (p : Json) :
    onEvent ⟨pre ++ [m], iL, aA, rc⟩ ⟨some "cancelled", p⟩ =
      ⟨pre ++ [cancelledUpd m], false, false, rc⟩ := by
  show (⟨updateLast cancelledUpd (pre ++ [m]), false, false, rc⟩ : AppState) = _
  rw [updateLast_append_last]

/-! None of the six staged-pipeline updaters writes `simpleResponse`. -/

theorem stage1StartUpd_simpleResponse (p : Json) (m : Msg) :
    (stage1StartUpd p m).simpleResponse = m.simpleResponse := rfl

theorem stage1CompleteUpd_simpleResponse (p : Json) (m : Msg) :
    (stage1CompleteUpd p m).simpleResponse = m.simpleResponse := rfl

theorem stage2StartUpd_simpleResponse (m : Msg) :
    (stage2StartUpd m).simpleResponse = m.simpleResponse := rfl

theorem stage2CompleteUpd_simpleResponse (p : Json) (m : Msg) :
    (stage2CompleteUpd p m).simpleResponse = m.simpleResponse := rfl

theorem stage3StartUpd_simpleResponse (m : Msg) :
    (stage3StartUpd m).simpleResponse = m.simpleResponse := rfl

theorem stage3CompleteUpd_simpleResponse (p : Json) (m : Msg) :
    (stage3CompleteUpd p m).simpleResponse = m.simpleResponse := rfl

/-- Soundness of the backward user scan: a found index carries role
`"user"`, lies in range, and nothing closer to the start point does. -/
theorem searchBackUser_sound (msgs : List Msg) :
    ∀ j k, searchBackUser msgs j = some k →
      roleAt msgs k = some "user" ∧ k ≤ j ∧
      ∀ j', k < j' → j' ≤ j → roleAt msgs j' ≠ some "user" := by
  intro j
  induction j with
  | zero =>
    intro k h
    simp only [searchBackUser] at h
    split at h
    · cases h
      refine ⟨by assumption, le_refl _, ?_⟩
      intro j' h1 h2
      omega
    · cases h
  | succ n ih =>
    intro k h
    simp only [searchBackUser] at h
    split at h
    · cases h
      refine ⟨by assumption, le_refl _, ?_⟩
      intro j' h1 h2
      omega
    · obtain ⟨hrole, hle, hnone⟩ := ih k h
      refine ⟨hrole, Nat.le_succ_of_le hle, ?_⟩
      intro j' h1 h2
      rcases Nat.lt_or_ge j' (n + 1) with hlt | hge
      · exact hnone j' h1 (Nat.lt_succ_iff.mp hlt)
      · have : j' = n + 1 := by omega
        subst this
        assumption

/-- Completeness of the backward user scan: a failed scan means no index
up to the start point holds a user message. -/
theorem searchBackUser_none (msgs : List Msg) :
    ∀ j, searchBackUser msgs j = none →
      ∀ j', j' ≤ j → roleAt msgs j' ≠ some "user" := by
  intro j
  induction j with
  | zero =>
    intro h j' hle
    interval_cases j'
    simp only [searchBackUser] at h
    split at h
    · cases h
    · assumption
  | succ n ih =>
    intro h j' hle
    simp only [searchBackUser] at h
    split at h
    · cases h
    · rcases Nat.lt_or_ge j' (n + 1) with hlt | hge
      · exact ih h j' (Nat.lt_succ_iff.mp hlt)
      · have : j' = n + 1 := by omega
        subst this
        assumption

theorem onEvents_nil (st : AppState) : onEvents st [] = st := rfl

theorem onEvents_cons (st : AppState) (e : Ev) (evs : List Ev) :
    onEvents st (e :: evs) = onEvents (onEvent st e) evs := rfl

/-! ## Claim theorems -/

/-- Claim C1: the spec requires the stream decoder to reassemble a record
split across two delivery chunks and emit exactly one `stage1_start`
event.  The code does not buffer a trailing partial line: on the split
delivery (first chunk ending in `data: {"typ`, second chunk starting with
`e":"stage1_start"}` and a newline) it emits zero events — the first
fragment is parsed alone and dropped as malformed JSON, and the second
fragment lacks the `data: ` prefix and is skipped — whereas the same
record in one chunk yields exactly one `stage1_start` event. -/
theorem C1_split_record_lost :
    decodeChunks ["data: \x7b\"typ", "e\":\"stage1_start\"\x7d\n"] = [] ∧
    decodeChunks ["data: \x7b\"type\":\"stage1_start\"\x7d\n"] =
      [⟨some "stage1_start", .obj [("type", .str "stage1_start")]⟩] :=
  ⟨rfl, rfl⟩

/-- Claim C9: a record whose payload is not valid JSON is dropped with
only a diagnostic and decoding continues: the decoded event sequence of a
line list containing one malformed `data: ` record is exactly the events
of the surrounding well-formed lines, in order. -/
theorem C9_malformed_record_skipped (pre post : List (List Char))
    (bad rest : List Char)
    (hpre : expectChars dataPrefix bad = some rest)
    (hbad : jsonParseChars rest = none) :
    decodeLines (pre ++ bad :: post) = decodeLines pre ++ decodeLines post := by
  have hb : decodeLine bad = none := by
    unfold decodeLine
    rw [hpre]
    show (match jsonParseChars rest with
          | some ev => some (Ev.mk ev.typeTag ev)
          | none => none) = none
    rw [hbad]
  simp [decodeLines, List.filterMap_append, List.filterMap_cons, hb]

/-- Witness for C9: three records, the middle one malformed; the decoder
emits the two surrounding events. -/
theorem C9_witness :
    decodeLines ([String.data "data: \x7b\"type\":\"a\"\x7d"] ++
        String.data "data: nope" :: [String.data "data: \x7b\"type\":\"b\"\x7d"]) =
      decodeLines [String.data "data: \x7b\"type\":\"a\"\x7d"] ++
        decodeLines [String.data "data: \x7b\"type\":\"b\"\x7d"] :=
  C9_malformed_record_skipped _ _ _ (String.data "nope") rfl rfl

/-- Claim C2 counterexample: on the two-message conversation
`[user "hi", assistant]`, regenerating the assistant message at position
1 finds the user message at index `k = 0`, but truncates the list to
length 1 (`messages.slice(0, messageIndex)` keeps the user message), not
to length `k = 0` as the claim states. -/
theorem C2_counterexample :
    findPrecedingUser [userMsg "hi", pendingMsg] 1 = some 0 ∧
    handleRegenerateMessage [userMsg "hi", pendingMsg] 1 =
      .resend [userMsg "hi"] (some "hi") ∧
    ([userMsg "hi"] : List Msg).length = 1 ∧ (1 : Nat) ≠ 0 :=
  ⟨rfl, rfl, rfl, by decide⟩

/-- Claim C2 (amended): when the backward scan from `turnPosition - 1`
finds the nearest preceding user message at index `k`, regenerate
truncates the conversation to length `turnPosition` — dropping the
target assistant message and everything after it, keeping the user
message — and issues a new turn with that user message's content
verbatim; when the scan finds none (no user message before
`turnPosition`), it fails and leaves the conversation unmodified. -/
theorem C2_regenerate_truncates_at_turn_position (msgs : List Msg) (i : Nat) :
    (∀ k, findPrecedingUser msgs i = some k →
        handleRegenerateMessage msgs i =
          .resend (msgs.take i) ((msgs.get? k).bind Msg.content) ∧
        roleAt msgs k = some "user" ∧ k < i ∧
        (∀ j, k < j → j < i → roleAt msgs j ≠ some "user")) ∧
    (findPrecedingUser msgs i = none →
        handleRegenerateMessage msgs i = .notFound ∧
        ∀ j, j < i → roleAt msgs j ≠ some "user") := by
  constructor
  · intro k hk
    refine ⟨by simp [handleRegenerateMessage, hk], ?_⟩
    cases i with
    | zero => cases hk
    | succ n =>
      obtain ⟨hrole, hle, hnone⟩ := searchBackUser_sound msgs n k hk
      exact ⟨hrole, Nat.lt_succ_of_le hle,
        fun j h1 h2 => hnone j h1 (Nat.lt_succ_iff.mp h2)⟩
  · intro hn
    refine ⟨by simp [handleRegenerateMessage, hn], ?_⟩
    cases i with
    | zero => intro j hj; omega
    | succ n =>
      exact fun j hj => searchBackUser_none msgs n hn j (Nat.lt_succ_iff.mp hj)

/-- Witness for C2: regenerating position 2 of
`[user "a", assistant, assistant]` finds the user message at index 0 and
truncates to the first two messages, re-sending `"a"`. -/
theorem C2_witness :
    handleRegenerateMessage [userMsg "a", pendingMsg, pendingMsg] 2 =
      .resend (List.take 2 [userMsg "a", pendingMsg, pendingMsg])
        ((List.get? [userMsg "a", pendingMsg, pendingMsg] 0).bind Msg.content) ∧
    roleAt [userMsg "a", pendingMsg, pendingMsg] 0 = some "user" ∧ 0 < 2 ∧
    (∀ j, 0 < j → j < 2 → roleAt [userMsg "a", pendingMsg, pendingMsg] j ≠ some "user") :=
  (C2_regenerate_truncates_at_turn_position [userMsg "a", pendingMsg, pendingMsg] 2).1 0 rfl

/-- Claim C3 counterexample: on a pending message with all four loading
flags raised, the `cancelled` handler clears only the three stage flags —
`loading.simple` stays `true`, so the claim that all four flags are
cleared fails. -/
theorem C3_counterexample :
    onEvent ⟨[userMsg "q", busyMsg], true, true, 0⟩ evCancelled =
      ⟨[userMsg "q",
        { busyMsg with loading := some { stage1 := false, stage2 := false
                                         stage3 := false, simple := true
                                         stage1Models := none } }],
       false, false, 0⟩ ∧
    ((onEvent ⟨[userMsg "q", busyMsg], true, true, 0⟩ evCancelled).messages.getLast?.bind
        Msg.loading).map Loading.simple = some true :=
  ⟨rfl, rfl⟩

/-- Claim C3 (amended): applying a `cancelled` event clears the three
stage loading flags of the pending message, leaves `loading.simple`
unchanged, and finalizes the turn (`isLoading` false, abort controller
cleared); applying it after a local abort has already cleared the flags
leaves the message list unchanged (idempotent on the conversation). -/
theorem C3_cancelled_clears_stage_flags (pre : List Msg) (m : Msg) (l : Loading)
    (iL aA : Bool) (rc : Nat) (hl : m.loading = some l) :
    onEvent ⟨pre ++ [m], iL, aA, rc⟩ evCancelled =
      ⟨pre ++ [{ m with loading := some ⟨false, false, false, l.simple, l.stage1Models⟩ }],
       false, false, rc⟩ ∧
    (onEvent (onEvent ⟨pre ++ [m], iL, aA, rc⟩ abortedEv) evCancelled).messages =
      (onEvent ⟨pre ++ [m], iL, aA, rc⟩ abortedEv).messages := by
  have h1 : onEvent ⟨pre ++ [m], iL, aA, rc⟩ abortedEv =
      ⟨pre ++ [abortedUpd m], iL, aA, rc⟩ :=
    onEvent_aborted pre m iL aA rc _
  have h2 : onEvent (⟨pre ++ [abortedUpd m], iL, aA, rc⟩ : AppState) evCancelled =
      ⟨pre ++ [cancelledUpd (abortedUpd m)], false, false, rc⟩ :=
    onEvent_cancelled pre (abortedUpd m) iL aA rc _
  have hc : onEvent ⟨pre ++ [m], iL, aA, rc⟩ evCancelled =
      ⟨pre ++ [cancelledUpd m], false, false, rc⟩ :=
    onEvent_cancelled pre m iL aA rc _
  constructor
  · rw [hc]
    simp [cancelledUpd, Msg.mapLoading, hl]
  · rw [h1, h2]
    simp [cancelledUpd, abortedUpd, Msg.mapLoading, hl]

/-- Witness for C3 (amended): concrete run on a fully busy pending
message. -/
theorem C3_witness :
    onEvent ⟨[userMsg "q"] ++ [busyMsg], true, true, 0⟩ evCancelled =
      ⟨[userMsg "q"] ++ [{ busyMsg with loading := some ⟨false, false, false, true, none⟩ }],
       false, false, 0⟩ ∧
    (onEvent (onEvent ⟨[userMsg "q"] ++ [busyMsg], true, true, 0⟩ abortedEv)
        evCancelled).messages =
      (onEvent ⟨[userMsg "q"] ++ [busyMsg], true, true, 0⟩ abortedEv).messages :=
  C3_cancelled_clears_stage_flags [userMsg "q"] busyMsg busyLoading true true 0 rfl

/-- Claim C7: a local abort while `loading.stage1` is true clears all
four loading flags of the in-flight message, assigns no terminal shape
(it writes neither `simpleResponse` nor any stage field), and preserves
every already-completed stage field. -/
theorem C7_abort_clears_flags_preserves_data (pre : List Msg) (m : Msg) (l : Loading)
    (iL aA : Bool) (rc : Nat) (hl : m.loading = some l) (_hs1 : l.stage1 = true) :
    (onEvent ⟨pre ++ [m], iL, aA, rc⟩ abortedEv).messages =
      pre ++ [{ m with loading := some ⟨false, false, false, false, l.stage1Models⟩ }] ∧
    (abortedUpd m).stage1 = m.stage1 ∧ (abortedUpd m).stage2 = m.stage2 ∧
    (abortedUpd m).stage3 = m.stage3 ∧
    (abortedUpd m).simpleResponse = m.simpleResponse ∧
    (abortedUpd m).metadata = m.metadata ∧
    (onEvent ⟨pre ++ [m], iL, aA, rc⟩ abortedEv).isLoading = iL := by
  have h1 : onEvent ⟨pre ++ [m], iL, aA, rc⟩ abortedEv =
      ⟨pre ++ [abortedUpd m], iL, aA, rc⟩ :=
    onEvent_aborted pre m iL aA rc _
  rw [h1]
  refine ⟨?_, rfl, rfl, rfl, rfl, rfl, rfl⟩
  simp [abortedUpd, Msg.mapLoading, hl]

/-- Witness for C7: aborting a turn that already completed stage 1 and is
loading stage 2 keeps the stage-1 data and clears the flags. -/
theorem C7_witness :
    (onEvent ⟨[userMsg "q"] ++ [midTurnMsg], true, true, 0⟩ abortedEv).messages =
      [userMsg "q"] ++
        [{ midTurnMsg with loading := some ⟨false, false, false, false, some (.arr [])⟩ }] :=
  (C7_abort_clears_flags_preserves_data [userMsg "q"] midTurnMsg
    ⟨true, false, false, false, some (.arr [])⟩ true true 0 rfl rfl).1

/-- Claim C8: an event whose type is outside the documented vocabulary is
a no-op on the state, and an unknown `foo_bar` event followed by a valid
`complete` leaves the state exactly as `complete` alone would, still
finalizing the turn (loading cleared, abort controller cleared, refresh
triggered). -/
theorem C8_unknown_event_is_noop :
    (∀ (st : AppState) (ty : Option String) (p : Json),
        (∀ s ∈ eventVocab, ty ≠ some s) → onEvent st ⟨ty, p⟩ = st) ∧
    (∀ (msgs : List Msg) (iL aA : Bool) (rc : Nat) (p q : Json),
        onEvents ⟨msgs, iL, aA, rc⟩ [⟨some "foo_bar", p⟩, ⟨some "complete", q⟩] =
          onEvents ⟨msgs, iL, aA, rc⟩ [⟨some "complete", q⟩] ∧
        onEvents ⟨msgs, iL, aA, rc⟩ [⟨some "foo_bar", p⟩, ⟨some "complete", q⟩] =
          ⟨msgs, false, false, rc + 1⟩) := by
  refine ⟨fun st ty p h => onEvent_unknown st ty p h, ?_⟩
  intro msgs iL aA rc p q
  have hfoo : onEvent ⟨msgs, iL, aA, rc⟩ ⟨some "foo_bar", p⟩ = ⟨msgs, iL, aA, rc⟩ :=
    onEvent_unknown _ _ _ (by decide)
  constructor
  · rw [onEvents_cons, hfoo]
  · rw [onEvents_cons, hfoo, onEvents_cons, onEvent_complete, onEvents_nil]

/-- Witness for C8: a concrete unrecognized event type leaves a concrete
mid-turn state untouched. -/
theorem C8_witness : onEvent exState ⟨some "nope", .null⟩ = exState :=
  C8_unknown_event_is_noop.1 exState (some "nope") .null (by decide)

/-- Claim C10 (implicit): every per-turn stream-event handler rewrites
only the last element of the messages array (all earlier messages and
the length are unchanged), and it selects that last element
unconditionally — applied over a conversation whose last message is an
already-terminal staged message, `stage2_start` still raises that
message's loading flag. -/
theorem C10_handlers_touch_only_last :
    (∀ (st : AppState) (ty : String) (p : Json), ty ∈ streamEventTys →
        (onEvent st ⟨some ty, p⟩).messages.dropLast = st.messages.dropLast ∧
        (onEvent st ⟨some ty, p⟩).messages.length = st.messages.length) ∧
    (onEvent ⟨[userMsg "q", doneStagedMsg], false, false, 0⟩ evStage2Start).messages =
      [userMsg "q",
       { doneStagedMsg with loading := some ⟨false, true, false, false, some (.arr [])⟩ }] :=
  ⟨fun st ty p _ => onEvent_frame st ⟨some ty, p⟩, rfl⟩

/-- Witness for C10: concrete frame instance for `stage1_start` on a
mid-turn state. -/
theorem C10_witness :
    (onEvent exState ⟨some "stage1_start", .null⟩).messages.dropLast =
      exState.messages.dropLast ∧
    (onEvent exState ⟨some "stage1_start", .null⟩).messages.length =
      exState.messages.length :=
  C10_handlers_touch_only_last.1 exState "stage1_start" .null (by decide)

/-- Claim C6 counterexample: the `catch`-block rollback
(`messages.slice(0, -2)`) is not limited to failures that precede event
acceptance — a mid-stream read error after an accepted `stage1_start`
event also removes the two optimistic messages, while the same run
without the error keeps them. -/
theorem C6_counterexample :
    (sendTurn [] "hi" (.streamed [evStage1Start (.arr [])] .readError)).messages = [] ∧
    (sendTurn [] "hi" (.streamed [evStage1Start (.arr [])] .done)).messages.length = 2 :=
  ⟨rfl, rfl⟩

/-- Claim C6 (amended): when the request fails before any event is
accepted, exactly the two optimistically appended messages are removed,
restoring the pre-send list (and loading is cleared); but the identical
two-message rollback also fires on any non-abort mid-stream failure
after events were accepted — an abort, by contrast, performs no
rollback. -/
theorem C6_open_failure_rollback (msgs : List Msg) (content : String) (evs : List Ev) :
    ((sendTurn msgs content .openFailure).messages = msgs ∧
      (sendTurn msgs content .openFailure).isLoading = false) ∧
    (sendTurn msgs content (.streamed evs .readError)).messages = msgs ∧
    (sendTurn msgs content .openAborted).messages =
      msgs ++ [userMsg content, pendingMsg] := by
  have hdd : ∀ (l : List Msg) (u pm : Msg), (l ++ [u, pm]).dropLast.dropLast = l := by
    intro l u pm
    have h : l ++ [u, pm] = (l ++ [u]) ++ [pm] := by simp
    rw [h, List.dropLast_concat, List.dropLast_concat]
  refine ⟨⟨?_, rfl⟩, ?_, rfl⟩
  · show sliceDropTwo (msgs ++ [userMsg content, pendingMsg]) = msgs
    rw [sliceDropTwo_eq, hdd]
  · show sliceDropTwo
        (onEvents ⟨msgs ++ [userMsg content, pendingMsg], true, true, 0⟩ evs).messages = msgs
    rw [sliceDropTwo_eq,
      (onEvents_frame ⟨msgs ++ [userMsg content, pendingMsg], true, true, 0⟩ evs).1]
    exact hdd msgs _ _

/-- Claim C5 counterexample: after `simple_mode_complete` the message has
`simpleResponse` set, but a later `stage1_complete` still writes its
stage-1 data onto the same message — the message then holds both simple
and staged terminal data, so the claimed exclusivity fails. -/
theorem C5_counterexample :
    ((onEvents ⟨[userMsg "q", pendingMsg], true, true, 0⟩
        [evSimpleComplete (.str "ans"), evStage1Complete (.arr [.str "r"])]).messages.getLast?.map
      Msg.simpleResponse) = some (some (.str "ans")) ∧
    ((onEvents ⟨[userMsg "q", pendingMsg], true, true, 0⟩
        [evSimpleComplete (.str "ans"), evStage1Complete (.arr [.str "r"])]).messages.getLast?.map
      Msg.stage1) = some (some (.arr [.str "r"])) :=
  ⟨rfl, rfl⟩

/-- Claim C5 (amended): once `simple_mode_complete` has attached the
simple response, no later staged-pipeline event clears it — the message
keeps `simpleResponse` (the shape the rendering layer keys on) through
any sequence of stage events; the code does not, however, prevent those
stage events from also writing stage data onto the same message. -/
theorem C5_simple_response_kept (pre : List Msg) (m : Msg) (iL aA : Bool) (rc : Nat)
    (d : Json) (evs : List Ev)
    (h : ∀ e ∈ evs, ∃ s ∈ stageEventTys, e.ty = some s) :
    ((onEvents ⟨pre ++ [m], iL, aA, rc⟩ (evSimpleComplete d :: evs)).messages.getLast?.map
      Msg.simpleResponse) = some (some d) := by
  suffices hmain : ∀ (evs : List Ev), (∀ e ∈ evs, ∃ s ∈ stageEventTys, e.ty = some s) →
      ∀ (pre : List Msg) (m : Msg) (iL aA : Bool) (rc : Nat), m.simpleResponse = some d →
      ((onEvents ⟨pre ++ [m], iL, aA, rc⟩ evs).messages.getLast?.map
        Msg.simpleResponse) = some (some d) by
    have h1 : onEvent ⟨pre ++ [m], iL, aA, rc⟩ (evSimpleComplete d) =
        ⟨pre ++ [simpleCompleteUpd (evSimpleComplete d).payload m], iL, aA, rc⟩ :=
      onEvent_simple_complete pre m iL aA rc _
    rw [onEvents_cons, h1]
    exact hmain evs h pre _ iL aA rc rfl
  intro evs
  induction evs with
  | nil =>
    intro _ pre m iL aA rc hm
    rw [onEvents_nil]
    show ((pre ++ [m]).getLast?.map Msg.simpleResponse) = some (some d)
    rw [List.getLast?_concat]
    simp [hm]
  | cons e t ih =>
    intro h pre m iL aA rc hm
    obtain ⟨s, hsmem, hty⟩ := h e (List.mem_cons_self e t)
    have ht : ∀ e' ∈ t, ∃ s ∈ stageEventTys, e'.ty = some s :=
      fun e' he' => h e' (List.mem_cons_of_mem e he')
    rcases e with ⟨ty, p⟩
    have hty' : ty = some s := hty
    subst hty'
    simp only [stageEventTys, List.mem_cons, List.not_mem_nil, or_false] at hsmem
    rw [onEvents_cons]
    rcases hsmem with rfl | rfl | rfl | rfl | rfl | rfl
    · rw [onEvent_stage1_start]
      exact ih ht pre (stage1StartUpd p m) iL aA rc
        (by rw [stage1StartUpd_simpleResponse, hm])
    · rw [onEvent_stage1_complete]
      exact ih ht pre (stage1CompleteUpd p m) iL aA rc
        (by rw [stage1CompleteUpd_simpleResponse, hm])
    · rw [onEvent_stage2_start]
      exact ih ht pre (stage2StartUpd m) iL aA rc
        (by rw [stage2StartUpd_simpleResponse, hm])
    · rw [onEvent_stage2_complete]
      exact ih ht pre (stage2CompleteUpd p m) iL aA rc
        (by rw [stage2CompleteUpd_simpleResponse, hm])
    · rw [onEvent_stage3_start]
      exact ih ht pre (stage3StartUpd m) iL aA rc
        (by rw [stage3StartUpd_simpleResponse, hm])
    · rw [onEvent_stage3_complete]
      exact ih ht pre (stage3CompleteUpd p m) iL aA rc
        (by rw [stage3CompleteUpd_simpleResponse, hm])

/-- Witness for C5: the simple response survives a subsequent
`stage1_complete`. -/
theorem C5_witness :
    ((onEvents ⟨[userMsg "q"] ++ [pendingMsg], true, true, 0⟩
        (evSimpleComplete (.str "a") :: [evStage1Complete (.arr [])])).messages.getLast?.map
      Msg.simpleResponse) = some (some (.str "a")) :=
  C5_simple_response_kept [userMsg "q"] pendingMsg true true 0 (.str "a")
    [evStage1Complete (.arr [])]
    (by
      intro e he
      simp only [List.mem_singleton] at he
      subst he
      exact ⟨"stage1_complete", by simp [stageEventTys], rfl⟩)

/-- Claim C4: folding the staged pipeline in its documented order —
optionally followed by `complete` (with or without a preceding
`title_complete`) — into the fresh placeholder yields a staged message
whose three stage fields hold the (non-null) event payloads, with every
loading flag false. -/
theorem C4_staged_pipeline_completes (pre : List Msg) (models d1 d2 md d3 : Json)
    (iL aA : Bool) (rc : Nat) (tail : List Ev)
    (htail : tail = [] ∨ tail = [evComplete] ∨ tail = [evTitleComplete, evComplete])
    (h1 : d1 ≠ .null) (h2 : d2 ≠ .null) (h3 : d3 ≠ .null) :
    (onEvents ⟨pre ++ [pendingMsg], iL, aA, rc⟩
        (stagedCore models d1 d2 md d3 ++ tail)).messages =
      pre ++ [stagedFinalMsg models d1 d2 md d3] ∧
    jsNonNull (stagedFinalMsg models d1 d2 md d3).stage1 ∧
    jsNonNull (stagedFinalMsg models d1 d2 md d3).stage2 ∧
    jsNonNull (stagedFinalMsg models d1 d2 md d3).stage3 ∧
    (stagedFinalMsg models d1 d2 md d3).loading =
      some ⟨false, false, false, false,
        some (if jsTruthy (some models) then models else .arr [])⟩ := by
  have hnn : ∀ (x : Json), x ≠ .null → jsNonNull (some x) := by
    intro x hx
    exact ⟨by simp, by simp [hx]⟩
  have hcore : (onEvents ⟨pre ++ [pendingMsg], iL, aA, rc⟩
      (stagedCore models d1 d2 md d3 ++ tail)).messages =
      pre ++ [stagedFinalMsg models d1 d2 md d3] := by
    rcases htail with rfl | rfl | rfl <;>
      simp only [stagedCore, List.cons_append, List.nil_append,
        evStage1Start, evStage1Complete, evStage2Start, evStage2Complete,
        evStage3Start, evStage3Complete, evTitleComplete, evComplete, wireEv,
        onEvents_cons, onEvents_nil,
        onEvent_stage1_start, onEvent_stage1_complete, onEvent_stage2_start,
        onEvent_stage2_complete, onEvent_stage3_start, onEvent_stage3_complete,
        onEvent_title_complete, onEvent_complete] <;>
      rfl
  exact ⟨hcore, hnn d1 h1, hnn d2 h2, hnn d3 h3, rfl⟩

/-- Witness for C4: a concrete full staged run ending in `complete`. -/
theorem C4_witness :
    (onEvents ⟨[userMsg "q"] ++ [pendingMsg], true, true, 0⟩
        (stagedCore (.arr [.str "m"]) (.arr []) (.arr []) (.obj []) (.obj []) ++
          [evComplete])).messages =
      [userMsg "q"] ++
        [stagedFinalMsg (.arr [.str "m"]) (.arr []) (.arr []) (.obj []) (.obj [])] :=
  (C4_staged_pipeline_completes [userMsg "q"] (.arr [.str "m"]) (.arr []) (.arr [])
    (.obj []) (.obj []) true true 0 [evComplete] (Or.inr (Or.inl rfl))
    (fun hh => Json.noConfusion hh) (fun hh => Json.noConfusion hh)
    (fun hh => Json.noConfusion hh)).1

end Council
